import Mathlib

/-!
Verification of the `pr` tmux-session switcher (single Go source file `main.go`).

The development shallowly embeds the core of the program:
  * the data model (`TmuxSession`, `FavouriteSession`, `FavouritesConfig`),
  * the favourites store operations `Touch` and `Save`,
  * the backend wrappers `listSessions`, `createSession`, `switchToSession`
    (subprocess results are passed in as data),
  * the resolver and materializer of `ChangeSession`.

External effects are represented explicitly: subprocess outcomes are inputs
(`CmdResult`), filesystem questions are oracle functions (`ResolveEnv`), and
the actions the program would perform (create / switch / mkdir / fatal exit)
are returned as data instead of executed.
-/

namespace Pr

/-- TmuxSession mirrors the Go struct `TmuxSession` (main.go:118-124).
`lastActivity` models the `time.Time` field as seconds since the Unix epoch
(`time.Unix(ts, 0)` becomes `ts`); the Go zero time is `goZeroTimeUnix`
below.  `windowsCount` models the Go `int`. -/
structure TmuxSession where
  name : String
  attached : Bool
  lastActivity : Int
  windowsCount : Int
  path : String
deriving Repr, DecidableEq, Inhabited

/-- The Unix-seconds value of Go's zero `time.Time` (January 1, year 1 UTC):
used when `strconv.ParseInt` fails and the `LastActivity` field keeps its
zero value (main.go:245-248). -/
def goZeroTimeUnix : Int := -62135596800

/-- FavouriteSession mirrors the Go struct `FavouriteSession` (main.go:109-115).
The Go `map[string]string` environment is modelled as an association list
(its JSON object contents); the empty list stands for both `nil` and the
empty map. -/
structure FavouriteSession where
  name : String
  path : String
  cmd : String
  aliases : List String
  env : List (String × String)
deriving Repr, DecidableEq, Inhabited

/-- FavouritesConfig mirrors the Go struct `FavouritesConfig` (main.go:150-153). -/
structure FavouritesConfig where
  sessions : List FavouriteSession
  changed : Bool
deriving Repr, DecidableEq, Inhabited

/-- Model of `strings.HasPrefix s pre` over the characters of the strings. -/
def goHasPrefix (s pre : String) : Bool :=
  pre.data.isPrefixOf s.data

/-- Search loop of `FavouritesConfig.Touch` (main.go:188-193): the index and
value of the first record whose `Name` equals `name`, if any.  `none` models
`found_i == -1`. -/
def findNamed (name : String) : List FavouriteSession → Option (Nat × FavouriteSession)
  | [] => none
  | r :: rs =>
    if r.name = name then some (0, r)
    else (findNamed name rs).map (fun p => (p.1 + 1, p.2))

/-- Touch mirrors `FavouritesConfig.Touch` (main.go:176-212): paths under
`/tmp/` are never persisted; a record already at position 0 is left alone;
an existing record is moved to the front keeping all its fields; a missing
record is inserted at the front with empty aliases/env and empty `Cmd`.
Any structural change sets the dirty flag. -/
def FavouritesConfig.Touch (fc : FavouritesConfig) (name path : String) : FavouritesConfig :=
  if goHasPrefix path "/tmp/" then fc
  else
    match findNamed name fc.sessions with
    | some (i, fs) =>
      if i = 0 then fc
      else ⟨fs :: (fc.sessions.take i ++ fc.sessions.drop (i + 1)), true⟩
    | none => ⟨⟨name, path, "", [], []⟩ :: fc.sessions, true⟩

/-- Save mirrors `FavouritesConfig.Save` (main.go:165-173).  The filesystem
write is represented by the returned value: `none` means no write happened
(store not dirty); `some (records, mode)` means the ordered record list was
serialized and written with the given permission bits.  The Go call is
`os.WriteFile(ConfigPath, bs, 0640)`. -/
def FavouritesConfig.Save (fc : FavouritesConfig) : Option (List FavouriteSession × Nat) :=
  if !fc.changed then none
  else some (fc.sessions, 0o640)

/-- Result of one tmux subprocess invocation, as observed by the program:
`ok` is `err == nil`, `output` the combined output bytes, `errText` the
text of the Go error value when `ok = false`. -/
structure CmdResult where
  ok : Bool
  output : String
  errText : String
deriving Repr, DecidableEq

/-- Numeric field parse used by `listSessions`: `strconv.Atoi` /
`strconv.ParseInt` modelled by `String.toInt?`, keeping the Go zero value
`dflt` on parse failure (main.go:241-248). -/
def parseIntField (s : String) (dflt : Int) : Int :=
  match s.toInt? with
  | some n => n
  | none => dflt

/-- One line of `tmux list-sessions` output turned into a session record
(main.go:233-251): only lines with exactly 5 tab-separated fields count. -/
def parseSessionLine (line : String) : Option TmuxSession :=
  let parts := line.splitOn "\t"
  if parts.length = 5 then
    some
      { name := parts.getD 0 ""
        path := parts.getD 1 ""
        attached := parts.getD 2 "" ≠ "0"
        windowsCount := parseIntField (parts.getD 3 "") 0
        lastActivity := parseIntField (parts.getD 4 "") goZeroTimeUnix }
  else none

/-- listSessions mirrors the Go `listSessions` (main.go:223-255).  On a
failed invocation the Go code logs the error and returns the EMPTY list;
it does not abort — hence the plain `List` return type with `[]` in the
error branch. -/
def listSessions (res : CmdResult) : List TmuxSession :=
  if res.ok = false then []
  else (res.output.splitOn "\n").filterMap parseSessionLine

/-- createSession mirrors the error handling of the Go `createSession`
(main.go:258-269): a failed invocation panics via `dieIfError` with the
message `Got error: <err>`. -/
def createSession (res : CmdResult) : Except String Unit :=
  if res.ok then .ok ()
  else .error ("Got error: " ++ res.errText)

/-- switchToSession mirrors the Go `switchToSession` (main.go:272-286).
Inside tmux a failed `switch-client` logs `failed: <output>` and then dies
with the error; outside tmux the process image is replaced (`syscall.Exec`),
modelled as a successful non-returning handoff. -/
def switchToSession (insideTmux : Bool) (res : CmdResult) : Except String Unit :=
  if insideTmux then
    if res.ok then .ok ()
    else .error ("failed: " ++ res.output ++ "; Got error: " ++ res.errText)
  else .ok ()

/-- countRepeatedChars mirrors the Go `countRepeatedChars` (main.go:340-347):
the length of `s` when every character equals `char`, otherwise 0.  (The Go
version returns `len(s)` in bytes; at the only call site the character is
ASCII `-`, where bytes and characters coincide.) -/
def countRepeatedChars (s : String) (char : Char) : Nat :=
  if s.data.all (fun ch => ch == char) then s.length else 0

/-- The name-collision suffix list (main.go:367). -/
def SUFFIXES : List String := ["", "1", "2", "3", "4", "5", "6", "7", "8", "9"]

/-- The `sessionsByName` map of `ChangeSession` (main.go:371-374): Go map
insertion iterates the listing in order, so for duplicate names the LAST
listed session wins the lookup. -/
def sessionsByName (sessions : List TmuxSession) (n : String) : Option TmuxSession :=
  sessions.foldl (fun acc s => if s.name = n then some s else acc) none

/-- The prefix scan over live sessions (main.go:427-432): every match
overwrites the previous one, so the LAST matching session in listing order
is kept. -/
def lastPrefixMatch (sessions : List TmuxSession) (tok : String) : Option TmuxSession :=
  sessions.foldl (fun acc s => if goHasPrefix s.name tok then some s else acc) none

/-- The favourites exact scan (main.go:437-457): the first record in store
order whose name equals the token or whose alias list contains it. -/
def favExactMatch (cfg : List FavouriteSession) (tok : String) : Option FavouriteSession :=
  cfg.find? (fun fs => fs.name == tok || fs.aliases.contains tok)

/-- The favourites name-prefix scan (main.go:462-470): the first record in
store order whose name has the token as a prefix (aliases deliberately not
prefix-matched). -/
def favNameMatchByPre (cfg : List FavouriteSession) (tok : String) : Option FavouriteSession :=
  cfg.find? (fun fs => goHasPrefix fs.name tok)

/-- Model of `filepath.Base` for slash-separated paths (the empty path gives
`.`, a path of only slashes gives `/`, otherwise the last path element with
trailing slashes stripped). -/
def pathBase (p : String) : String :=
  if p = "" then "."
  else
    let cs := (p.data.reverse.dropWhile (fun c => c = '/'))
    if cs = [] then "/"
    else String.mk (cs.takeWhile (fun c => c ≠ '/')).reverse

/-- Model of `filepath.Dir` for slash-separated paths: everything before the
last path element (without the final `Clean` normalization of the Go
version, which no claim exercises — the value only feeds the `isDir`
oracle). -/
def pathDir (p : String) : String :=
  let cs := p.data.reverse.dropWhile (fun c => c = '/')
  let rest := (cs.dropWhile (fun c => c ≠ '/')).dropWhile (fun c => c = '/')
  if rest = [] then (if goHasPrefix p "/" then "/" else ".")
  else String.mk rest.reverse

/-- Model of `filepath.Join Home x` for a clean home path and entry name. -/
def pathJoin (dir entry : String) : String := dir ++ "/" ++ entry

/-- Filesystem and process context consumed by `ChangeSession`:
`getwd` models `os.Getwd`, `isDir` the `isDir` stat probe (main.go:314-319),
`home` the global `Home`, and `homeEntries` the entry names of
`os.ReadDir(Home)` in directory-listing order. -/
structure ResolveEnv where
  getwd : String
  isDir : String → Bool
  home : String
  homeEntries : List String

/-- The four mutable locals of `ChangeSession` (main.go:376-379):
`sessionName`, `sessionDirPath`, `sessionStartCmd`, `sessionEnv`.  An empty
`name` means "not resolved yet", exactly as in the Go control flow. -/
structure ResolveState where
  name : String
  dir : String
  cmd : String
  env : List (String × String)
deriving Repr, DecidableEq, Inhabited

/-- Exact live-session match (main.go:421-424). -/
def stepExactLive (sessions : List TmuxSession) (tok : String) (p : ResolveState) : ResolveState :=
  if p.name = "" then
    match sessionsByName sessions tok with
    | some s => { p with name := s.name, dir := s.path }
    | none => p
  else p

/-- Live-session name-prefix match, last match wins (main.go:425-433). -/
def stepLivePre (sessions : List TmuxSession) (tok : String) (p : ResolveState) : ResolveState :=
  if p.name = "" then
    match lastPrefixMatch sessions tok with
    | some s => { p with name := s.name, dir := s.path }
    | none => p
  else p

/-- Favourites exact name-or-alias match (main.go:434-458). -/
def stepFavExact (cfg : List FavouriteSession) (tok : String) (p : ResolveState) : ResolveState :=
  if p.name = "" then
    match favExactMatch cfg tok with
    | some fs => ⟨fs.name, fs.path, fs.cmd, fs.env⟩
    | none => p
  else p

/-- Favourites name-prefix match (main.go:459-473). -/
def stepFavPre (cfg : List FavouriteSession) (tok : String) (p : ResolveState) : ResolveState :=
  if p.name = "" then
    match favNameMatchByPre cfg tok with
    | some fs => ⟨fs.name, fs.path, fs.cmd, fs.env⟩
    | none => p
  else p

/-- Home-directory exact subdirectory match (main.go:475-482). -/
def stepHomeExact (ctx : ResolveEnv) (tok : String) (p : ResolveState) : ResolveState :=
  if p.name = "" then
    let q := pathJoin ctx.home tok
    if ctx.isDir q then { p with name := pathBase q, dir := q } else p
  else p

/-- Home-directory subdirectory name-prefix scan (main.go:483-497): the
first directory entry (in listing order) whose name has the token as a
prefix and which is a directory. -/
def stepHomePre (ctx : ResolveEnv) (tok : String) (p : ResolveState) : ResolveState :=
  if p.name = "" then
    match ctx.homeEntries.findSome?
        (fun e =>
          if goHasPrefix e tok then
            let q := pathJoin ctx.home e
            if ctx.isDir q then some q else none
          else none) with
    | some q => { p with name := pathBase q, dir := q }
    | none => p
  else p

/-- Outcome of the resolution phase of `ChangeSession` (main.go:376-500):
either a fatal exit with the logged message, or the resolved target
(session name, directory, start command, environment) together with the
directory the absolute-path branch created via `os.Mkdir`, if any. -/
inductive ResolveResult where
  | fatal (msg : String)
  | target (name dir startCmd : String) (env : List (String × String)) (mkdirPath : Option String)
deriving Repr, DecidableEq

/-- Resolution phase of `ChangeSession` (main.go:376-500).  `sortedSessions`
stands for the slice produced by the `sort.Slice` call of the dash branch
(main.go:411-415): Go's `sort.Slice` gives no guarantee beyond the
`SortSliceValid` contract stated below, so the sorted slice is passed in and
constrained by that contract in the theorems about this branch. -/
def resolveSession (ctx : ResolveEnv) (cfg : List FavouriteSession)
    (sessions sortedSessions : List TmuxSession) (sessionId0 : String)
    (allowCreateDir : Bool) : ResolveResult :=
  let sessionId := if sessionId0 = "." then ctx.getwd else sessionId0
  let phase1 : Except String (ResolveState × Option String) :=
    if goHasPrefix sessionId "/" then
      if !ctx.isDir sessionId then
        if ctx.isDir (pathDir sessionId) then
          if allowCreateDir || goHasPrefix sessionId "/tmp/" then
            .ok (⟨pathBase sessionId, sessionId, "", []⟩, some sessionId)
          else
            .error ("cannot switch to " ++ sessionId ++
              " (directory does not exist): use -c flag to create a new directory")
        else
          .error ("cannot switch to " ++ sessionId ++
            ": looks like a dir but does not exist and cannot be created")
      else .ok (⟨pathBase sessionId, sessionId, "", []⟩, none)
    else if 0 < countRepeatedChars sessionId '-' then
      if sessions.length < 2 then
        .error "cannot switch to a previous session (too few sessions)"
      else
        let n := countRepeatedChars sessionId '-'
        let n := if sessions.length ≤ n then sessions.length - 1 else n
        let s := sortedSessions.getD n default
        .ok (⟨s.name, s.path, "", []⟩, none)
    else
      .ok (stepFavPre cfg sessionId
            (stepFavExact cfg sessionId
              (stepLivePre sessions sessionId
                (stepExactLive sessions sessionId ⟨"", "", "", []⟩))), none)
  match phase1 with
  | .error msg => .fatal msg
  | .ok (p, mk) =>
    let p := stepHomePre ctx sessionId (stepHomeExact ctx sessionId p)
    if p.name = "" then .fatal ("directory ~/" ++ sessionId ++ "* does not exist")
    else .target p.name p.dir p.cmd p.env mk

/-- The backend actions the materialization phase decides on
(main.go:502-524), returned as data: each constructor records the arguments
of the `Config.Touch`, `createSession` and `switchToSession` calls the Go
code performs, or the fatal message. -/
inductive MatAction where
  | switchTo (touchName touchPath switchName : String)
  | createAndSwitch (touchName touchPath createName createDir createCmd : String)
      (createEnv : List (String × String)) (switchName : String)
  | fatal (msg : String)
deriving Repr, DecidableEq

/-- The suffix loop of `ChangeSession` (main.go:503-523), recursing over the
remaining entries of `SUFFIXES`.  Note that the creation branch passes the
BARE `sessionName` to `Config.Touch`, `createSession` and `switchToSession`,
not the suffixed candidate `_name` it just probed — exactly as the Go code
does. -/
def materializeLoop (byName : String → Option TmuxSession)
    (sessionName sessionDirPath sessionStartCmd : String)
    (sessionEnv : List (String × String)) : List String → MatAction
  | [] =>
    .fatal ("cannot create session " ++ sessionName ++ " because names " ++
      sessionName ++ ", " ++ (sessionName ++ SUFFIXES.getD 1 "") ++ ".." ++
      (sessionName ++ SUFFIXES.getD 9 "") ++ " are occupied")
  | sfx :: rest =>
    let candidate := sessionName ++ sfx
    match byName candidate with
    | some s =>
      if s.path = sessionDirPath then .switchTo s.name s.path s.name
      else materializeLoop byName sessionName sessionDirPath sessionStartCmd sessionEnv rest
    | none =>
      .createAndSwitch sessionName sessionDirPath sessionName sessionDirPath
        sessionStartCmd sessionEnv sessionName

/-- Materialization phase of `ChangeSession` (main.go:502-524). -/
def materialize (byName : String → Option TmuxSession)
    (sessionName sessionDirPath sessionStartCmd : String)
    (sessionEnv : List (String × String)) : MatAction :=
  materializeLoop byName sessionName sessionDirPath sessionStartCmd sessionEnv SUFFIXES

/-- ChangeSession (main.go:370-524): resolution followed by materialization
against the `sessionsByName` map built from the listing.  The first
component is the directory created by the absolute-path branch, if any. -/
def ChangeSession (ctx : ResolveEnv) (cfg : List FavouriteSession)
    (sessions sortedSessions : List TmuxSession) (sessionId : String)
    (allowCreateDir : Bool) : Option String × MatAction :=
  match resolveSession ctx cfg sessions sortedSessions sessionId allowCreateDir with
  | .fatal msg => (none, .fatal msg)
  | .target name dir cmd env mk => (mk, materialize (sessionsByName sessions) name dir cmd env)

/-- The Go comparator of the dash branch (main.go:413-415):
`sortedSessions[i].LastActivity.After(sortedSessions[j].LastActivity)`. -/
def sessionAfter (a b : TmuxSession) : Bool :=
  b.lastActivity < a.lastActivity

/-- Contract of the `sort.Slice` call at main.go:413-415: the output is a
permutation of the input that is sorted with respect to the comparator
(no later element is `After` an earlier one).  Go's `sort.Slice` is
documented as NOT guaranteed stable, so this contract — not any particular
tie order — is all that line of code provides. -/
def SortSliceValid (input output : List TmuxSession) : Prop :=
  List.Perm input output ∧
  List.Pairwise (fun a b => sessionAfter b a = false) output

/-- Decidability of the sort contract, so that concrete instances can be
checked by evaluation. -/
instance (input output : List TmuxSession) : Decidable (SortSliceValid input output) := by
  unfold SortSliceValid
  infer_instance

/-- A concrete resolution context whose filesystem oracle holds no
directories: used by the concrete evaluations below. -/
def ctxEmpty : ResolveEnv := ⟨"/cwd", fun _ => false, "/home/user", []⟩

/- ------------------------------------------------------------------ -/
/- Helper lemmas                                                      -/
/- ------------------------------------------------------------------ -/

theorem foldl_byName_acc {tok : String} :
    ∀ (l : List TmuxSession) (acc : Option TmuxSession),
      (∀ s ∈ l, s.name ≠ tok) →
      l.foldl (fun acc s => if s.name = tok then some s else acc) acc = acc
  | [], _, _ => rfl
  | s :: rest, acc, h => by
    rw [List.foldl_cons, if_neg (h s (List.mem_cons_self s rest))]
    exact foldl_byName_acc rest acc (fun x hx => h x (List.mem_cons_of_mem s hx))

theorem sessionsByName_eq_none {l : List TmuxSession} {tok : String}
    (h : ∀ s ∈ l, s.name ≠ tok) : sessionsByName l tok = none :=
  foldl_byName_acc l none h

theorem foldl_lastPre_acc {tok : String} :
    ∀ (l : List TmuxSession) (acc : Option TmuxSession),
      (∀ s ∈ l, goHasPrefix s.name tok = false) →
      l.foldl (fun acc s => if goHasPrefix s.name tok then some s else acc) acc = acc
  | [], _, _ => rfl
  | s :: rest, acc, h => by
    rw [List.foldl_cons, if_neg (by simp [h s (List.mem_cons_self s rest)])]
    exact foldl_lastPre_acc rest acc (fun x hx => h x (List.mem_cons_of_mem s hx))

theorem lastPrefixMatch_eq_none {l : List TmuxSession} {tok : String}
    (h : ∀ s ∈ l, goHasPrefix s.name tok = false) : lastPrefixMatch l tok = none :=
  foldl_lastPre_acc l none h

theorem lastPrefixMatch_split {l₁ l₂ : List TmuxSession} {s : TmuxSession} {tok : String}
    (hs : goHasPrefix s.name tok = true)
    (h₂ : ∀ x ∈ l₂, goHasPrefix x.name tok = false) :
    lastPrefixMatch (l₁ ++ s :: l₂) tok = some s := by
  unfold lastPrefixMatch
  rw [List.foldl_append, List.foldl_cons, if_pos hs]
  exact foldl_lastPre_acc l₂ (some s) h₂

theorem findNamed_name_eq {name : String} :
    ∀ {l : List FavouriteSession} {i : Nat} {fs : FavouriteSession},
      findNamed name l = some (i, fs) → fs.name = name
  | [], _, _, h => by simp [findNamed] at h
  | r :: rs, i, fs, h => by
    rw [findNamed] at h
    by_cases hr : r.name = name
    · rw [if_pos hr] at h
      obtain ⟨h1, h2⟩ := Prod.mk.injEq .. ▸ Option.some.inj h
      exact h2 ▸ hr
    · rw [if_neg hr, Option.map_eq_some'] at h
      obtain ⟨⟨j, g⟩, hj, he⟩ := h
      obtain ⟨-, h2⟩ := Prod.mk.injEq .. ▸ he
      exact h2 ▸ findNamed_name_eq hj

theorem findNamed_eq_none {name : String} {l : List FavouriteSession}
    (h : ∀ r ∈ l, r.name ≠ name) : findNamed name l = none := by
  induction l with
  | nil => rfl
  | cons r rs ih =>
    rw [findNamed, if_neg (h r (List.mem_cons_self r rs)),
      ih (fun x hx => h x (List.mem_cons_of_mem r hx))]
    rfl

theorem findNamed_zero {name : String} {l : List FavouriteSession} {fs : FavouriteSession}
    (h : findNamed name l = some (0, fs)) : ∃ rest, l = fs :: rest ∧ fs.name = name := by
  match l with
  | [] => simp [findNamed] at h
  | r :: rs =>
    rw [findNamed] at h
    by_cases hr : r.name = name
    · rw [if_pos hr] at h
      obtain ⟨-, h2⟩ := Prod.mk.injEq .. ▸ Option.some.inj h
      exact ⟨rs, by rw [h2], h2 ▸ hr⟩
    · rw [if_neg hr, Option.map_eq_some'] at h
      obtain ⟨⟨j, g⟩, -, he⟩ := h
      obtain ⟨h1, -⟩ := Prod.mk.injEq .. ▸ he
      exact absurd h1 (by simp)

theorem findNamed_append {name : String} {pre post : List FavouriteSession}
    {r : FavouriteSession} (hpre : ∀ x ∈ pre, x.name ≠ name) (hr : r.name = name) :
    findNamed name (pre ++ r :: post) = some (pre.length, r) := by
  induction pre with
  | nil => simp [findNamed, hr]
  | cons x xs ih =>
    rw [List.cons_append, findNamed, if_neg (hpre x (List.mem_cons_self x xs)),
      ih (fun y hy => hpre y (List.mem_cons_of_mem x hy))]
    simp

theorem take_len_split {α : Type} (pre : List α) (r : α) (post : List α) :
    (pre ++ r :: post).take pre.length = pre :=
  List.take_left pre (r :: post)

theorem drop_len_succ_split {α : Type} (pre : List α) (r : α) (post : List α) :
    (pre ++ r :: post).drop (pre.length + 1) = post := by
  have h : pre ++ r :: post = (pre ++ [r]) ++ post := by simp
  have hlen : (pre ++ [r]).length = pre.length + 1 := by simp
  rw [h, ← hlen, List.drop_left]

/-- A `Touch` whose record already sits at position 0 changes nothing. -/
theorem Touch_of_head (fc : FavouritesConfig) (name path : String) (r : FavouriteSession)
    (hhead : fc.sessions.head? = some r) (hn : r.name = name) :
    fc.Touch name path = fc := by
  obtain ⟨rest, hl⟩ : ∃ t, fc.sessions = r :: t := by
    cases hsl : fc.sessions with
    | nil => rw [hsl] at hhead; simp at hhead
    | cons x t =>
      rw [hsl] at hhead
      simp at hhead
      exact ⟨t, by rw [hhead]⟩
  unfold FavouritesConfig.Touch
  by_cases htmp : goHasPrefix path "/tmp/" = true
  · rw [if_pos htmp]
  · rw [if_neg htmp]
    have hfind : findNamed name fc.sessions = some (0, r) := by
      rw [hl, findNamed, if_pos hn]
    simp [hfind]

/-- A non-ephemeral `Touch` of a record found at a positive position moves
it, unchanged, to the front and keeps the other records in order. -/
theorem Touch_found_front (fc : FavouritesConfig) (name path : String)
    (pre post : List FavouriteSession) (r : FavouriteSession)
    (htmp : goHasPrefix path "/tmp/" = false)
    (hsplit : fc.sessions = pre ++ r :: post) (hr : r.name = name)
    (hpre : ∀ x ∈ pre, x.name ≠ name) (hne : pre.length ≠ 0) :
    fc.Touch name path = ⟨r :: (pre ++ post), true⟩ := by
  have hfind : findNamed name fc.sessions = some (pre.length, r) := by
    rw [hsplit]; exact findNamed_append hpre hr
  unfold FavouritesConfig.Touch
  rw [if_neg (by simp [htmp])]
  simp only [hfind, if_neg hne]
  rw [hsplit, take_len_split, drop_len_succ_split]

/-- Head of the store after a non-ephemeral `Touch`: in every branch the
record named `name` ends up (or already was) in front. -/
theorem Touch_head (fc : FavouritesConfig) (name path : String)
    (htmp : goHasPrefix path "/tmp/" = false) :
    ∃ r rest, (fc.Touch name path).sessions = r :: rest ∧ r.name = name := by
  unfold FavouritesConfig.Touch
  rw [if_neg (by simp [htmp])]
  rcases hf : findNamed name fc.sessions with - | ⟨i, fs⟩
  · exact ⟨⟨name, path, "", [], []⟩, fc.sessions, rfl, rfl⟩
  · by_cases hi : i = 0
    · subst hi
      obtain ⟨rest, hl, hn⟩ := findNamed_zero hf
      exact ⟨fs, rest, by simpa using hl, hn⟩
    · simp only [if_neg hi]
      exact ⟨fs, _, rfl, findNamed_name_eq hf⟩

theorem replicateDash_ne_dot {n : Nat} (hn : 1 ≤ n) :
    String.mk (List.replicate n '-') ≠ "." := by
  intro h
  have hd : List.replicate n '-' = ['.'] := congrArg String.data h
  match n, hn with
  | 1, _ => simp [List.replicate] at hd
  | m + 2, _ => simp [List.replicate] at hd

theorem replicateDash_not_slash {n : Nat} (hn : 1 ≤ n) :
    goHasPrefix (String.mk (List.replicate n '-')) "/" = false := by
  match n, hn with
  | m + 1, _ =>
    show List.isPrefixOf ['/'] ('-' :: List.replicate m '-') = false
    simp [List.isPrefixOf]

theorem countRepeatedChars_replicateDash (n : Nat) :
    countRepeatedChars (String.mk (List.replicate n '-')) '-' = n := by
  unfold countRepeatedChars
  rw [if_pos]
  · show (List.replicate n '-').length = n
    exact List.length_replicate n '-'
  · simp

theorem isPrefixOf_nil_eq {l : List Char} (h : l.isPrefixOf ([] : List Char) = true) :
    l = [] := by
  cases l with
  | nil => rfl
  | cons a as => simp [List.isPrefixOf] at h

/-- Unfolding of `resolveSession` on the plain route: a token that is not
the current-directory marker, not an absolute path and not a run of
dashes goes through the exact-live, prefix-live, favourite-exact,
favourite-prefix, home-exact, home-prefix chain. -/
theorem resolveSession_plain (ctx : ResolveEnv) (cfg : List FavouriteSession)
    (sessions sortedSessions : List TmuxSession) (tok : String) (acd : Bool)
    (hdot : tok ≠ ".") (hsl : goHasPrefix tok "/" = false)
    (hdash : countRepeatedChars tok '-' = 0) :
    resolveSession ctx cfg sessions sortedSessions tok acd =
      (let p := stepHomePre ctx tok (stepHomeExact ctx tok
        (stepFavPre cfg tok (stepFavExact cfg tok
          (stepLivePre sessions tok (stepExactLive sessions tok ⟨"", "", "", []⟩)))));
      if p.name = "" then ResolveResult.fatal ("directory ~/" ++ tok ++ "* does not exist")
      else ResolveResult.target p.name p.dir p.cmd p.env none) := by
  unfold resolveSession
  simp only [if_neg hdot, hsl, hdash, Bool.false_eq_true, if_false, lt_irrefl, if_neg]

/-- Unfolding of `resolveSession` on the dash route with at least two live
sessions. -/
theorem resolveSession_dash (ctx : ResolveEnv) (cfg : List FavouriteSession)
    (sessions sortedSessions : List TmuxSession) (n : Nat) (acd : Bool)
    (hn : 1 ≤ n) (hlen : 2 ≤ sessions.length) :
    resolveSession ctx cfg sessions sortedSessions (String.mk (List.replicate n '-')) acd =
      (let m := if sessions.length ≤ n then sessions.length - 1 else n;
      let s := sortedSessions.getD m default;
      let p := stepHomePre ctx (String.mk (List.replicate n '-'))
        (stepHomeExact ctx (String.mk (List.replicate n '-')) ⟨s.name, s.path, "", []⟩);
      if p.name = "" then
        ResolveResult.fatal
          ("directory ~/" ++ String.mk (List.replicate n '-') ++ "* does not exist")
      else ResolveResult.target p.name p.dir p.cmd p.env none) := by
  unfold resolveSession
  simp only [if_neg (replicateDash_ne_dot hn), replicateDash_not_slash hn,
    Bool.false_eq_true, if_false, countRepeatedChars_replicateDash,
    if_pos hn, if_neg (by omega : ¬sessions.length < 2)]
  simp [Nat.lt_of_lt_of_le Nat.zero_lt_one hn]

/-- Unfolding of `resolveSession` on the dash route with fewer than two live
sessions. -/
theorem resolveSession_dash_fatal (ctx : ResolveEnv) (cfg : List FavouriteSession)
    (sessions sortedSessions : List TmuxSession) (n : Nat) (acd : Bool)
    (hn : 1 ≤ n) (hlen : sessions.length < 2) :
    resolveSession ctx cfg sessions sortedSessions (String.mk (List.replicate n '-')) acd =
      ResolveResult.fatal "cannot switch to a previous session (too few sessions)" := by
  unfold resolveSession
  simp only [if_neg (replicateDash_ne_dot hn), replicateDash_not_slash hn,
    Bool.false_eq_true, if_false, countRepeatedChars_replicateDash,
    if_pos hlen]
  simp [Nat.lt_of_lt_of_le Nat.zero_lt_one hn]

theorem stepExactLive_skip (sessions : List TmuxSession) (tok : String) (p : ResolveState)
    (h : p.name ≠ "") : stepExactLive sessions tok p = p := by
  simp [stepExactLive, h]

theorem stepLivePre_skip (sessions : List TmuxSession) (tok : String) (p : ResolveState)
    (h : p.name ≠ "") : stepLivePre sessions tok p = p := by
  simp [stepLivePre, h]

theorem stepFavExact_skip (cfg : List FavouriteSession) (tok : String) (p : ResolveState)
    (h : p.name ≠ "") : stepFavExact cfg tok p = p := by
  simp [stepFavExact, h]

theorem stepFavPre_skip (cfg : List FavouriteSession) (tok : String) (p : ResolveState)
    (h : p.name ≠ "") : stepFavPre cfg tok p = p := by
  simp [stepFavPre, h]

theorem stepHomeExact_skip (ctx : ResolveEnv) (tok : String) (p : ResolveState)
    (h : p.name ≠ "") : stepHomeExact ctx tok p = p := by
  simp [stepHomeExact, h]

theorem stepHomePre_skip (ctx : ResolveEnv) (tok : String) (p : ResolveState)
    (h : p.name ≠ "") : stepHomePre ctx tok p = p := by
  simp [stepHomePre, h]

/- ------------------------------------------------------------------ -/
/- Claim theorems                                                     -/
/- ------------------------------------------------------------------ -/

/-- C4: resolving a token of N repeated dashes (N ≥ 1) fails fatally when
fewer than 2 live sessions exist; otherwise it selects index N of the
activity-descending-sorted live sessions, clamping N to the last index when
N is at least the session count. -/
theorem C4_dash_selection (ctx : ResolveEnv) (cfg : List FavouriteSession)
    (sessions sortedSessions : List TmuxSession) (acd : Bool) (n : Nat)
    (hn : 1 ≤ n) (hv : SortSliceValid sessions sortedSessions)
    (hnames : ∀ s ∈ sessions, s.name ≠ "") :
    (sessions.length < 2 →
      resolveSession ctx cfg sessions sortedSessions (String.mk (List.replicate n '-')) acd =
        .fatal "cannot switch to a previous session (too few sessions)") ∧
    (2 ≤ sessions.length →
      resolveSession ctx cfg sessions sortedSessions (String.mk (List.replicate n '-')) acd =
        .target (sortedSessions.getD (min n (sessions.length - 1)) default).name
          (sortedSessions.getD (min n (sessions.length - 1)) default).path "" [] none) := by
  constructor
  · intro hlen
    exact resolveSession_dash_fatal ctx cfg sessions sortedSessions n acd hn hlen
  · intro hlen
    rw [resolveSession_dash ctx cfg sessions sortedSessions n acd hn hlen]
    have hm : (if sessions.length ≤ n then sessions.length - 1 else n) =
        min n (sessions.length - 1) := by
      split <;> omega
    have hlen2 : sortedSessions.length = sessions.length := (List.Perm.length_eq hv.1).symm
    have hmlt : min n (sessions.length - 1) < sortedSessions.length := by omega
    have hmem : sortedSessions.getD (min n (sessions.length - 1)) default ∈ sessions := by
      rw [List.getD_eq_getElem _ _ hmlt]
      exact hv.1.mem_iff.mpr (List.getElem_mem hmlt)
    have hsname := hnames _ hmem
    simp only [hm]
    generalize hgen : sortedSessions.getD (min n (sessions.length - 1)) default = s0 at hsname ⊢
    rw [stepHomeExact_skip ctx _ ⟨s0.name, s0.path, "", []⟩ hsname,
      stepHomePre_skip ctx _ ⟨s0.name, s0.path, "", []⟩ hsname,
      if_neg hsname]

/-- C5: a token not resolved by an earlier rule that is a prefix of at least
one live session name selects the LAST matching live session in listing
order, returning its name and directory. -/
theorem C5_livePre_last_wins (ctx : ResolveEnv) (cfg : List FavouriteSession)
    (sessions sortedSessions : List TmuxSession) (tok : String) (acd : Bool)
    (l₁ l₂ : List TmuxSession) (s : TmuxSession)
    (hdot : tok ≠ ".") (hsl : goHasPrefix tok "/" = false)
    (hdash : countRepeatedChars tok '-' = 0)
    (hexact : ∀ x ∈ sessions, x.name ≠ tok)
    (hsplit : sessions = l₁ ++ s :: l₂)
    (hs : goHasPrefix s.name tok = true)
    (hlast : ∀ x ∈ l₂, goHasPrefix x.name tok = false) :
    resolveSession ctx cfg sessions sortedSessions tok acd =
      .target s.name s.path "" [] none := by
  have hmem : s ∈ sessions := by
    rw [hsplit]; exact List.mem_append_right _ (List.mem_cons_self s l₂)
  have hsname : s.name ≠ "" := by
    intro h0
    have htok : tok = "" := by
      have h1 := hs
      rw [h0] at h1
      have h2 : tok.data = [] := isPrefixOf_nil_eq h1
      cases tok
      simp_all
    exact hexact s hmem (by rw [h0, htok])
  rw [resolveSession_plain ctx cfg sessions sortedSessions tok acd hdot hsl hdash]
  have e1 : stepExactLive sessions tok ⟨"", "", "", []⟩ = ⟨"", "", "", []⟩ := by
    simp [stepExactLive, sessionsByName_eq_none hexact]
  have e2 : stepLivePre sessions tok ⟨"", "", "", []⟩ = ⟨s.name, s.path, "", []⟩ := by
    have := @lastPrefixMatch_split l₁ l₂ s tok hs hlast
    rw [← hsplit] at this
    simp [stepLivePre, this]
  simp only [e1, e2]
  rw [stepFavExact_skip cfg tok ⟨s.name, s.path, "", []⟩ hsname,
    stepFavPre_skip cfg tok ⟨s.name, s.path, "", []⟩ hsname,
    stepHomeExact_skip ctx tok ⟨s.name, s.path, "", []⟩ hsname,
    stepHomePre_skip ctx tok ⟨s.name, s.path, "", []⟩ hsname,
    if_neg hsname]

/-- C6: with a favourite record named "project" carrying alias "p", and
neither token caught by an earlier precedence rule (nor by an earlier
favourite), resolving "p" yields the same session name, directory, start
command and environment as resolving "project". -/
theorem C6_alias_equiv (ctx : ResolveEnv) (cfg : List FavouriteSession)
    (sessions sortedSessions : List TmuxSession) (acd : Bool) (R : FavouriteSession)
    (hex1 : ∀ x ∈ sessions, x.name ≠ "p")
    (hex2 : ∀ x ∈ sessions, x.name ≠ "project")
    (hpre1 : ∀ x ∈ sessions, goHasPrefix x.name "p" = false)
    (hpre2 : ∀ x ∈ sessions, goHasPrefix x.name "project" = false)
    (hfav1 : favExactMatch cfg "p" = some R)
    (hfav2 : favExactMatch cfg "project" = some R)
    (hname : R.name = "project") :
    resolveSession ctx cfg sessions sortedSessions "p" acd =
      resolveSession ctx cfg sessions sortedSessions "project" acd ∧
    resolveSession ctx cfg sessions sortedSessions "p" acd =
      .target R.name R.path R.cmd R.env none := by
  have hRname : R.name ≠ "" := by
    rw [hname]; intro h; exact absurd h (by decide)
  have key : ∀ tok : String, tok ≠ "." → goHasPrefix tok "/" = false →
      countRepeatedChars tok '-' = 0 →
      (∀ x ∈ sessions, x.name ≠ tok) →
      (∀ x ∈ sessions, goHasPrefix x.name tok = false) →
      favExactMatch cfg tok = some R →
      resolveSession ctx cfg sessions sortedSessions tok acd =
        .target R.name R.path R.cmd R.env none := by
    intro tok hdot hsl hdash hex hpre hfav
    rw [resolveSession_plain ctx cfg sessions sortedSessions tok acd hdot hsl hdash]
    have e1 : stepExactLive sessions tok ⟨"", "", "", []⟩ = ⟨"", "", "", []⟩ := by
      simp [stepExactLive, sessionsByName_eq_none hex]
    have e2 : stepLivePre sessions tok ⟨"", "", "", []⟩ = ⟨"", "", "", []⟩ := by
      simp [stepLivePre, lastPrefixMatch_eq_none hpre]
    have e3 : stepFavExact cfg tok ⟨"", "", "", []⟩ = ⟨R.name, R.path, R.cmd, R.env⟩ := by
      simp [stepFavExact, hfav]
    simp only [e1, e2, e3]
    rw [stepFavPre_skip cfg tok ⟨R.name, R.path, R.cmd, R.env⟩ hRname,
      stepHomeExact_skip ctx tok ⟨R.name, R.path, R.cmd, R.env⟩ hRname,
      stepHomePre_skip ctx tok ⟨R.name, R.path, R.cmd, R.env⟩ hRname,
      if_neg hRname]
  have k1 := key "p" (by decide) (by decide) (by decide) hex1 hpre1 hfav1
  have k2 := key "project" (by decide) (by decide) (by decide) hex2 hpre2 hfav2
  exact ⟨k1.trans k2.symm, k1⟩

/-- C7: `Touch(name, path)` is idempotent, and a `Touch` whose record is
already at position 0 changes neither the record order nor the dirty
flag. -/
theorem C7_touch_idempotent (fc : FavouritesConfig) (name path : String) :
    (fc.Touch name path).Touch name path = fc.Touch name path ∧
    (∀ r, fc.sessions.head? = some r → r.name = name → fc.Touch name path = fc) := by
  constructor
  · by_cases htmp : goHasPrefix path "/tmp/" = true
    · have h1 : fc.Touch name path = fc := by
        unfold FavouritesConfig.Touch; rw [if_pos htmp]
      rw [h1]; exact h1
    · have htmp' : goHasPrefix path "/tmp/" = false := by simpa using htmp
      obtain ⟨r, rest, hs, hn⟩ := Touch_head fc name path htmp'
      exact Touch_of_head (fc.Touch name path) name path r (by rw [hs]; rfl) hn
  · intro r hh hn
    exact Touch_of_head fc name path r hh hn

/-- C7 witness: a concrete store whose record is already first. -/
theorem C7_touch_idempotent_witness :
    (FavouritesConfig.Touch
        (FavouritesConfig.Touch ⟨[⟨"a", "/x", "", [], []⟩], false⟩ "a" "/x") "a" "/x" =
      FavouritesConfig.Touch ⟨[⟨"a", "/x", "", [], []⟩], false⟩ "a" "/x") ∧
    FavouritesConfig.Touch ⟨[⟨"a", "/x", "", [], []⟩], false⟩ "a" "/x" =
      ⟨[⟨"a", "/x", "", [], []⟩], false⟩ :=
  ⟨(C7_touch_idempotent ⟨[⟨"a", "/x", "", [], []⟩], false⟩ "a" "/x").1,
    (C7_touch_idempotent ⟨[⟨"a", "/x", "", [], []⟩], false⟩ "a" "/x").2
      ⟨"a", "/x", "", [], []⟩ rfl rfl⟩

/-- C8: a non-ephemeral `Touch` of a name absent from the store prepends
exactly one record with the given name and path, empty aliases, empty env
and empty command, keeps every pre-existing record in order, and sets the
dirty flag. -/
theorem C8_touch_new_prepends (fc : FavouritesConfig) (name path : String)
    (htmp : goHasPrefix path "/tmp/" = false)
    (hn : ∀ r ∈ fc.sessions, r.name ≠ name) :
    fc.Touch name path = ⟨⟨name, path, "", [], []⟩ :: fc.sessions, true⟩ := by
  unfold FavouritesConfig.Touch
  rw [if_neg (by simp [htmp]), findNamed_eq_none hn]

/-- C8 witness at a concrete store. -/
theorem C8_touch_new_prepends_witness :
    FavouritesConfig.Touch ⟨[⟨"b", "/b", "c", ["al"], [("E", "1")]⟩], false⟩ "new" "/n" =
      ⟨[⟨"new", "/n", "", [], []⟩, ⟨"b", "/b", "c", ["al"], [("E", "1")]⟩], true⟩ :=
  C8_touch_new_prepends ⟨[⟨"b", "/b", "c", ["al"], [("E", "1")]⟩], false⟩ "new" "/n"
    (by decide) (by decide)

/-- C10: a `Touch` of a name present in the store leaves that record's
path, aliases, command and environment unchanged even when the path
argument differs from the stored path: the store either stays as it is or
becomes the untouched record followed by all other records in their
original order. -/
theorem C10_touch_frame (fc : FavouritesConfig) (name path : String)
    (pre post : List FavouriteSession) (r : FavouriteSession)
    (hsplit : fc.sessions = pre ++ r :: post) (hr : r.name = name)
    (hpre : ∀ x ∈ pre, x.name ≠ name) :
    ((fc.Touch name path).sessions = fc.sessions ∨
      (fc.Touch name path).sessions = r :: (pre ++ post)) ∧
    r ∈ (fc.Touch name path).sessions := by
  have hmem : r ∈ fc.sessions := by
    rw [hsplit]; exact List.mem_append_right _ (List.mem_cons_self r post)
  by_cases htmp : goHasPrefix path "/tmp/" = true
  · have h1 : fc.Touch name path = fc := by
      unfold FavouritesConfig.Touch; rw [if_pos htmp]
    rw [h1]; exact ⟨Or.inl rfl, hmem⟩
  · have htmp' : goHasPrefix path "/tmp/" = false := by simpa using htmp
    cases pre with
    | nil =>
      have hh : fc.sessions.head? = some r := by rw [hsplit]; rfl
      have h1 := Touch_of_head fc name path r hh hr
      rw [h1]; exact ⟨Or.inl rfl, hmem⟩
    | cons x xs =>
      have h1 := Touch_found_front fc name path (x :: xs) post r htmp' hsplit hr hpre (by simp)
      rw [h1]
      exact ⟨Or.inr rfl, List.mem_cons_self _ _⟩

/-- C10 witness: the record sits at position 1 and the path argument
differs from its stored path; all its fields survive. -/
theorem C10_touch_frame_witness :
    ((FavouritesConfig.Touch
          ⟨[⟨"a", "/a", "", [], []⟩, ⟨"r", "/r", "cc", ["z"], [("X", "1")]⟩], false⟩
          "r" "/different").sessions =
        [⟨"a", "/a", "", [], []⟩, ⟨"r", "/r", "cc", ["z"], [("X", "1")]⟩] ∨
      (FavouritesConfig.Touch
          ⟨[⟨"a", "/a", "", [], []⟩, ⟨"r", "/r", "cc", ["z"], [("X", "1")]⟩], false⟩
          "r" "/different").sessions =
        ⟨"r", "/r", "cc", ["z"], [("X", "1")]⟩ :: ([⟨"a", "/a", "", [], []⟩] ++ [])) ∧
    (⟨"r", "/r", "cc", ["z"], [("X", "1")]⟩ : FavouriteSession) ∈
      (FavouritesConfig.Touch
          ⟨[⟨"a", "/a", "", [], []⟩, ⟨"r", "/r", "cc", ["z"], [("X", "1")]⟩], false⟩
          "r" "/different").sessions :=
  C10_touch_frame
    ⟨[⟨"a", "/a", "", [], []⟩, ⟨"r", "/r", "cc", ["z"], [("X", "1")]⟩], false⟩
    "r" "/different" [⟨"a", "/a", "", [], []⟩] [] ⟨"r", "/r", "cc", ["z"], [("X", "1")]⟩
    rfl rfl (by decide)

/-- C9 counterexample: the write of a dirty store uses mode 0640, whose
group permission bits are not zero — the claim's "read/write to the owner
only (no group or other access)" fails on the code, which grants the group
read access. -/
theorem C9_mode_grants_group_read :
    FavouritesConfig.Save ⟨[⟨"a", "/a", "", [], []⟩], true⟩ =
      some ([⟨"a", "/a", "", [], []⟩], 0o640) ∧
    0o640 / 8 % 8 ≠ 0 :=
  ⟨rfl, by decide⟩

/-- C9 (amended): `Save` writes nothing when the store is not dirty; when
dirty it serializes the full ordered record list and writes it with mode
0640 — owner read/write, group read, no access for others. -/
theorem C9_save_behavior (fc : FavouritesConfig) :
    (fc.changed = false → fc.Save = none) ∧
    (fc.changed = true → fc.Save = some (fc.sessions, 0o640) ∧
      0o640 % 8 = 0 ∧ 0o640 / 8 % 8 = 4 ∧ 0o640 / 64 % 8 = 6) := by
  constructor
  · intro h; simp [FavouritesConfig.Save, h]
  · intro h
    exact ⟨by simp [FavouritesConfig.Save, h], by decide, by decide, by decide⟩

/-- C9 witness: a clean store writes nothing, a dirty store writes its
records with mode 0640. -/
theorem C9_save_behavior_witness :
    FavouritesConfig.Save ⟨[], false⟩ = none ∧
    FavouritesConfig.Save ⟨[], true⟩ = some ([], 0o640) :=
  ⟨(C9_save_behavior ⟨[], false⟩).1 rfl, ((C9_save_behavior ⟨[], true⟩).2 rfl).1⟩

/-- C2 counterexample: a failing `tmux list-sessions` invocation does NOT
abort — `listSessions` logs and continues with the empty live-session
list, the degraded result the claim rules out. -/
theorem C2_list_failure_degrades :
    (⟨false, "no server running on /tmp/tmux-1000/default", "exit status 1"⟩ :
        CmdResult).ok = false ∧
    listSessions ⟨false, "no server running on /tmp/tmux-1000/default", "exit status 1"⟩ =
      [] :=
  ⟨rfl, rfl⟩

/-- C2 (amended): on a failed backend invocation, `createSession` and
`switchToSession` (inside tmux) abort with the backend's error text (the
latter reporting its raw output), while the `listSessions` query only logs
and continues with an empty live-session list. -/
theorem C2_backend_failure_behavior (res : CmdResult) (h : res.ok = false) :
    listSessions res = [] ∧
    createSession res = .error ("Got error: " ++ res.errText) ∧
    switchToSession true res =
      .error ("failed: " ++ res.output ++ "; Got error: " ++ res.errText) := by
  refine ⟨?_, ?_, ?_⟩ <;> simp [listSessions, createSession, switchToSession, h]

/-- C2 witness at a concrete failed invocation. -/
theorem C2_backend_failure_behavior_witness :
    listSessions ⟨false, "out", "err"⟩ = [] ∧
    createSession ⟨false, "out", "err"⟩ = .error "Got error: err" ∧
    switchToSession true ⟨false, "out", "err"⟩ = .error "failed: out; Got error: err" :=
  C2_backend_failure_behavior ⟨false, "out", "err"⟩ rfl

/-- C1: with live session `proj` bound to `/other` and a favourite alias
resolving token `x` to name `proj` and directory `/dir`, the suffix loop
skips the colliding bare candidate but then CREATES the session under the
bare name `proj` — which is live and bound elsewhere — instead of the first
free suffixed candidate `proj1`.  This is the slip the claim (and the
code's own collision-avoidance comment) is about. -/
theorem C1_create_uses_bare_name :
    ChangeSession ctxEmpty [⟨"proj", "/dir", "", ["x"], []⟩]
        [⟨"proj", false, 0, 1, "/other"⟩] [⟨"proj", false, 0, 1, "/other"⟩] "x" false =
      (none, .createAndSwitch "proj" "/dir" "proj" "/dir" "" [] "proj") ∧
    sessionsByName [⟨"proj", false, 0, 1, "/other"⟩] "proj" =
      some ⟨"proj", false, 0, 1, "/other"⟩ ∧
    sessionsByName [⟨"proj", false, 0, 1, "/other"⟩] ("proj" ++ SUFFIXES.getD 1 "") = none ∧
    ("proj" : String) ≠ "proj" ++ SUFFIXES.getD 1 "" :=
  ⟨rfl, rfl, rfl, by decide⟩

/-- C3 counterexample: with two live sessions of EQUAL `lastActivity`, both
orders satisfy the `sort.Slice` contract the dash branch relies on, the
tied pair may come out reversed, and the session selected for token `-`
differs between the two contract-valid outcomes — so the selection is not
determined by (lastActivity, listing order), contradicting the claimed
stable sort. -/
theorem C3_unstable_counterexample :
    SortSliceValid [⟨"a", false, 5, 1, "/pa"⟩, ⟨"b", false, 5, 1, "/pb"⟩]
        [⟨"a", false, 5, 1, "/pa"⟩, ⟨"b", false, 5, 1, "/pb"⟩] ∧
    SortSliceValid [⟨"a", false, 5, 1, "/pa"⟩, ⟨"b", false, 5, 1, "/pb"⟩]
        [⟨"b", false, 5, 1, "/pb"⟩, ⟨"a", false, 5, 1, "/pa"⟩] ∧
    (⟨"a", false, 5, 1, "/pa"⟩ : TmuxSession).lastActivity =
      (⟨"b", false, 5, 1, "/pb"⟩ : TmuxSession).lastActivity ∧
    ChangeSession ctxEmpty [] [⟨"a", false, 5, 1, "/pa"⟩, ⟨"b", false, 5, 1, "/pb"⟩]
        [⟨"a", false, 5, 1, "/pa"⟩, ⟨"b", false, 5, 1, "/pb"⟩] "-" false ≠
      ChangeSession ctxEmpty [] [⟨"a", false, 5, 1, "/pa"⟩, ⟨"b", false, 5, 1, "/pb"⟩]
        [⟨"b", false, 5, 1, "/pb"⟩, ⟨"a", false, 5, 1, "/pa"⟩] "-" false := by
  refine ⟨by decide, by decide, rfl, by decide⟩

/-- C3 (amended): the dash branch orders live sessions by `lastActivity`
descending under the (unstable) `sort.Slice` contract; when the
`lastActivity` values are pairwise distinct the contract-valid output is
unique, so the selected session is fully determined. -/
theorem C3_sorted_unique_of_distinct (sessions out1 out2 : List TmuxSession)
    (hd : List.Pairwise (fun a b => a.lastActivity ≠ b.lastActivity) sessions)
    (h1 : SortSliceValid sessions out1) (h2 : SortSliceValid sessions out2) :
    out1 = out2 ∧ List.Pairwise (fun a b => b.lastActivity ≤ a.lastActivity) out1 := by
  have key : ∀ out : List TmuxSession, SortSliceValid sessions out →
      List.Pairwise (fun a b => b.lastActivity < a.lastActivity) out := by
    rintro out ⟨hp, hs⟩
    have hd' : List.Pairwise
        (fun a b : TmuxSession => a.lastActivity ≠ b.lastActivity) out :=
      (List.Perm.pairwise_iff (fun h => Ne.symm h) hp).mp hd
    refine (hs.and hd').imp ?_
    intro a b h
    obtain ⟨hab, hne⟩ := h
    have h1 : ¬(a.lastActivity < b.lastActivity) := by
      simpa [sessionAfter] using hab
    omega
  have e1 := key out1 h1
  have e2 := key out2 h2
  have hperm : out1.Perm out2 := h1.1.symm.trans h2.1
  haveI : IsAntisymm TmuxSession (fun a b => b.lastActivity < a.lastActivity) :=
    ⟨fun a b hab hba => absurd (lt_trans hab hba) (lt_irrefl _)⟩
  exact ⟨List.eq_of_perm_of_sorted hperm e1 e2, e1.imp (fun h => le_of_lt h)⟩

/-- C3 witness: distinct activities pin the sorted order. -/
theorem C3_sorted_unique_of_distinct_witness :
    ([⟨"A", false, 30, 1, "/a"⟩, ⟨"B", false, 20, 1, "/b"⟩] :
        List TmuxSession) = [⟨"A", false, 30, 1, "/a"⟩, ⟨"B", false, 20, 1, "/b"⟩] ∧
    List.Pairwise (fun a b : TmuxSession => b.lastActivity ≤ a.lastActivity)
      [⟨"A", false, 30, 1, "/a"⟩, ⟨"B", false, 20, 1, "/b"⟩] :=
  C3_sorted_unique_of_distinct
    [⟨"A", false, 30, 1, "/a"⟩, ⟨"B", false, 20, 1, "/b"⟩]
    [⟨"A", false, 30, 1, "/a"⟩, ⟨"B", false, 20, 1, "/b"⟩]
    [⟨"A", false, 30, 1, "/a"⟩, ⟨"B", false, 20, 1, "/b"⟩]
    (by decide) (by decide) (by decide)

/-- C4 witness: three live sessions [A newest, B, C]; token `-` resolves to
B, `--` to C, `---` clamps to C, and a single live session is fatal. -/
theorem C4_dash_selection_witness :
    resolveSession ctxEmpty []
        [⟨"A", false, 30, 1, "/a"⟩, ⟨"B", false, 20, 1, "/b"⟩, ⟨"C", false, 10, 1, "/c"⟩]
        [⟨"A", false, 30, 1, "/a"⟩, ⟨"B", false, 20, 1, "/b"⟩, ⟨"C", false, 10, 1, "/c"⟩]
        "-" false = .target "B" "/b" "" [] none ∧
    resolveSession ctxEmpty []
        [⟨"A", false, 30, 1, "/a"⟩, ⟨"B", false, 20, 1, "/b"⟩, ⟨"C", false, 10, 1, "/c"⟩]
        [⟨"A", false, 30, 1, "/a"⟩, ⟨"B", false, 20, 1, "/b"⟩, ⟨"C", false, 10, 1, "/c"⟩]
        "--" false = .target "C" "/c" "" [] none ∧
    resolveSession ctxEmpty []
        [⟨"A", false, 30, 1, "/a"⟩, ⟨"B", false, 20, 1, "/b"⟩, ⟨"C", false, 10, 1, "/c"⟩]
        [⟨"A", false, 30, 1, "/a"⟩, ⟨"B", false, 20, 1, "/b"⟩, ⟨"C", false, 10, 1, "/c"⟩]
        "---" false = .target "C" "/c" "" [] none ∧
    resolveSession ctxEmpty [] [⟨"A", false, 30, 1, "/a"⟩] [⟨"A", false, 30, 1, "/a"⟩]
        "-" false = .fatal "cannot switch to a previous session (too few sessions)" := by
  refine ⟨?_, by decide, by decide, ?_⟩
  · exact (C4_dash_selection ctxEmpty []
      [⟨"A", false, 30, 1, "/a"⟩, ⟨"B", false, 20, 1, "/b"⟩, ⟨"C", false, 10, 1, "/c"⟩]
      [⟨"A", false, 30, 1, "/a"⟩, ⟨"B", false, 20, 1, "/b"⟩, ⟨"C", false, 10, 1, "/c"⟩]
      false 1 (by decide) (by decide) (by decide)).2 (by decide)
  · exact (C4_dash_selection ctxEmpty [] [⟨"A", false, 30, 1, "/a"⟩]
      [⟨"A", false, 30, 1, "/a"⟩] false 1 (by decide) (by decide) (by decide)).1 (by decide)

/-- C5 witness: two live sessions share the typed prefix; the LAST one in
listing order is selected. -/
theorem C5_livePre_last_wins_witness :
    resolveSession ctxEmpty []
        [⟨"alpha1", false, 0, 1, "/p1"⟩, ⟨"alpha2", false, 0, 1, "/p2"⟩] []
        "alpha" false = .target "alpha2" "/p2" "" [] none :=
  C5_livePre_last_wins ctxEmpty []
    [⟨"alpha1", false, 0, 1, "/p1"⟩, ⟨"alpha2", false, 0, 1, "/p2"⟩] [] "alpha" false
    [⟨"alpha1", false, 0, 1, "/p1"⟩] [] ⟨"alpha2", false, 0, 1, "/p2"⟩
    (by decide) (by decide) (by decide) (by decide) rfl (by decide) (by decide)

/-- C6 witness at a concrete favourite store. -/
theorem C6_alias_equiv_witness :
    resolveSession ctxEmpty [⟨"project", "/prj", "make", ["p"], [("K", "V")]⟩] [] []
        "p" false =
      resolveSession ctxEmpty [⟨"project", "/prj", "make", ["p"], [("K", "V")]⟩] [] []
        "project" false ∧
    resolveSession ctxEmpty [⟨"project", "/prj", "make", ["p"], [("K", "V")]⟩] [] []
        "p" false = .target "project" "/prj" "make" [("K", "V")] none :=
  C6_alias_equiv ctxEmpty [⟨"project", "/prj", "make", ["p"], [("K", "V")]⟩] [] [] false
    ⟨"project", "/prj", "make", ["p"], [("K", "V")]⟩
    (by decide) (by decide) (by decide) (by decide) (by decide) (by decide) rfl

end Pr
